import Mathlib

/-!
Shallow embedding of the `next-limitr` rate-limiting middleware
(storage adapters, configuration resolver, request pipeline, webhook
sink) together with proofs about the claims of its specification.

JavaScript integers are modelled as `Nat` (all quantities involved —
counters, epoch milliseconds, limits — are non-negative and far below
2^53, where JS number arithmetic is exact).  JavaScript `Map`s and
plain objects are modelled as association lists in insertion order;
`Map.set` / property assignment replaces the first matching key in
place and appends fresh keys, which is exactly JS enumeration-order
behaviour.  Asynchronous fallible code is modelled with `Except`:
a thrown error is `Except.error`, an awaited success is `Except.ok`.
Network effects (Redis/Mongo/Postgres/edge calls, webhook transport)
are modelled as oracle values supplied in an environment record.
-/

set_option autoImplicit false

namespace NextLimitr

universe u v

/-! ## Association lists (JS `Map` / plain-object semantics) -/

/-- Lookup of the first entry with the given key (JS `map.get(k)` /
`obj[k]`; keys of a real JS map are unique, so first = only). -/
def alistLookup {α : Type u} : List (String × α) → String → Option α
  | [], _ => none
  | (k', v) :: rest, k => if k' = k then some v else alistLookup rest k

/-- JS `map.set(k, v)` / `obj[k] = v`: replace the first entry with the
key in place, append when absent (preserves JS enumeration order). -/
def alistSet {α : Type u} : List (String × α) → String → α → List (String × α)
  | [], k, v => [(k, v)]
  | (k', v') :: rest, k, v =>
      if k' = k then (k, v) :: rest else (k', v') :: alistSet rest k v

/-! ## Usage record (`RateLimitUsage` in `src/types.ts`) -/

/-- JS `Number.MAX_SAFE_INTEGER`, the sentinel `limit` every storage
adapter returns (the enforced limit lives in the pipeline). -/
def MAX_SAFE_INTEGER : Nat := 2 ^ 53 - 1

/-- The `RateLimitUsage` record every adapter produces. -/
structure RateLimitUsage where
  used : Nat
  remaining : Nat
  reset : Nat
  limit : Nat
deriving DecidableEq, Repr

/-! ## In-memory storage adapter (`src/storage/memory.ts`) -/

/-- A `MemoryRecord` entry of `MemoryStorage`'s private `Map`. -/
structure MemoryRecord where
  count : Nat
  resetTime : Nat
deriving DecidableEq, Repr

/-- The private `Map<string, MemoryRecord>` of one `MemoryStorage`
instance, in insertion order. -/
abbrev MemState := List (String × MemoryRecord)

/-- Embeds `MemoryStorage.cleanup`: evict every record whose deadline has
passed (`now >= record.resetTime`). -/
def memCleanup (st : MemState) (now : Nat) : MemState :=
  st.filter (fun e => decide (now < e.2.resetTime))

/-- Embeds `MemoryStorage.increment`: sweep expired entries, then start a
fresh window (count 1, `resetTime = now + windowMs`) when the key is
absent or expired, else bump the live window's count.  `reset` is
reported in Unix seconds (`Math.floor(resetTime / 1000)`). -/
def memIncrement (st : MemState) (key : String) (windowMs now : Nat) :
    RateLimitUsage × MemState :=
  let st1 := memCleanup st now
  match alistLookup st1 key with
  | none =>
      let resetTime := now + windowMs
      ({ used := 1, remaining := MAX_SAFE_INTEGER - 1,
         reset := resetTime / 1000, limit := MAX_SAFE_INTEGER },
       alistSet st1 key { count := 1, resetTime := resetTime })
  | some record =>
      if record.resetTime ≤ now then
        let resetTime := now + windowMs
        ({ used := 1, remaining := MAX_SAFE_INTEGER - 1,
           reset := resetTime / 1000, limit := MAX_SAFE_INTEGER },
         alistSet st1 key { count := 1, resetTime := resetTime })
      else
        ({ used := record.count + 1, remaining := MAX_SAFE_INTEGER - (record.count + 1),
           reset := record.resetTime / 1000, limit := MAX_SAFE_INTEGER },
         alistSet st1 key { count := record.count + 1, resetTime := record.resetTime })

/-- Embeds `MemoryStorage.decrement`: reduce the counter by one only when the
record exists with `count > 0`; otherwise leave the map untouched. -/
def memDecrement (st : MemState) (key : String) : MemState :=
  match alistLookup st key with
  | some record =>
      if 0 < record.count then
        alistSet st key { count := record.count - 1, resetTime := record.resetTime }
      else st
  | none => st

/-- Embeds `MemoryStorage.reset`: delete the key. -/
def memReset (st : MemState) (key : String) : MemState :=
  st.filter (fun e => decide (e.1 ≠ key))

/-- Fold running `increment` at time `t`, then at each time of the
list in order, returning the last call's usage record and the final
map (models `n` successive `increment` calls on one instance). -/
def memSeqFinal (st : MemState) (key : String) (w : Nat) (t : Nat) :
    List Nat → RateLimitUsage × MemState
  | [] => memIncrement st key w t
  | t' :: ts => memSeqFinal (memIncrement st key w t).2 key w t' ts

/-! ## Redis adapter's atomic Lua script (`src/storage/redis.ts`,
`incrScript`).  A Redis key is modelled with its value and an optional
absolute expiry in epoch ms (`PTTL` is the distance to it); Redis
treats an entry whose expiry has passed as absent. -/

/-- One Redis string key holding a counter. -/
structure RedisEntry where
  value : Nat
  expiresAt : Option Nat
deriving DecidableEq, Repr

/-- The keyspace visible to the Lua script. -/
abbrev RedisState := List (String × RedisEntry)

/-- Whether an entry is live at `now` (no expiry, or expiry in the
future); Redis lazily deletes expired keys on access. -/
def redisLiveAt (e : RedisEntry) (now : Nat) : Bool :=
  match e.expiresAt with
  | none => true
  | some x => decide (now < x)

/-- Read a key the way Redis commands see it (expired = missing). -/
def redisGetLive (st : RedisState) (k : String) (now : Nat) : Option RedisEntry :=
  match alistLookup st k with
  | some e => if redisLiveAt e now then some e else none
  | none => none

/-- Redis `INCR`: bump a live entry keeping its expiry; a missing (or
expired) key becomes a fresh entry with value 1 and no expiry. -/
def redisIncrCmd (st : RedisState) (k : String) (now : Nat) : Nat × RedisState :=
  match redisGetLive st k now with
  | some e => (e.value + 1, alistSet st k { value := e.value + 1, expiresAt := e.expiresAt })
  | none => (1, alistSet st k { value := 1, expiresAt := none })

/-- Redis `PTTL`: -2 for a missing key, -1 for a key without expiry, else
the remaining ms. -/
def redisPTTLCmd (st : RedisState) (k : String) (now : Nat) : Int :=
  match redisGetLive st k now with
  | none => -2
  | some e =>
      match e.expiresAt with
      | none => -1
      | some x => (x : Int) - now

/-- Redis `PEXPIRE key ms`: set the expiry of an existing key. -/
def redisPExpireCmd (st : RedisState) (k : String) (now ms : Nat) : RedisState :=
  match alistLookup st k with
  | some e => alistSet st k { value := e.value, expiresAt := some (now + ms) }
  | none => st

/-- The adapter's `incrScript` Lua program: `INCR`, read `PTTL`, and
only when `ttl < 0` set `PEXPIRE windowMs` (so an in-flight window's
expiry is never reset); returns `{v, ttl}`. -/
def redisEvalIncr (st : RedisState) (k : String) (windowMs now : Nat) :
    (Nat × Int) × RedisState :=
  let vst := redisIncrCmd st k now
  let ttl := redisPTTLCmd vst.2 k now
  if ttl < 0 then ((vst.1, (windowMs : Int)), redisPExpireCmd vst.2 k now windowMs)
  else ((vst.1, ttl), vst.2)

/-! ## Edge adapter, Cloudflare KV path (`src/storage/edge.ts`).
`kv.get`/`kv.put` with an optional `expirationTtl` in seconds; no
atomic primitive, read–modify–write. -/

/-- One KV value with its optional absolute expiry (epoch ms). -/
structure KVEntry where
  value : String
  expiresAt : Option Nat
deriving DecidableEq, Repr

/-- A KV namespace's contents. -/
abbrev KVState := List (String × KVEntry)

/-- Cloudflare `kv.get(k, "text")`: the stored string, unless expired. -/
def kvGet (st : KVState) (k : String) (now : Nat) : Option String :=
  match alistLookup st k with
  | none => none
  | some e =>
      match e.expiresAt with
      | none => some e.value
      | some x => if now < x then some e.value else none

/-- Cloudflare `kv.put` with an optional `expirationTtl`: store `v`; a TTL in seconds
becomes an absolute expiry, no TTL stores the value without expiry. -/
def kvPut (st : KVState) (k v : String) (ttlSec : Option Nat) (now : Nat) : KVState :=
  alistSet st k { value := v, expiresAt := ttlSec.map (fun t => now + t * 1000) }

/-- JS `Number(raw) || 0` for the decimal strings this adapter stores:
parse a digit string (empty = 0, like JS `Number("")`), anything
non-numeric collapses to 0. -/
def parseNatCore : List Char → Nat → Option Nat
  | [], acc => some acc
  | c :: cs, acc =>
      if c.isDigit then parseNatCore cs (acc * 10 + (c.toNat - 48)) else none

/-- JS `Number(s) || 0` on the adapter's stored values. -/
def jsNum (s : String) : Nat := (parseNatCore s.data 0).getD 0

/-- The adapter's internal key prefixing (`next-limitr:` + key). -/
def edgeKey (key : String) : String := "next-limitr:" ++ key

/-- Embeds `EdgeStorage.increment`, Cloudflare KV fallback: read the current
value (missing = "0"), write back `prev + 1` with
`expirationTtl = Math.ceil(windowMs / 1000)`; `reset` is recomputed
from `now` on every call. -/
def edgeIncrementKV (st : KVState) (key : String) (windowMs now : Nat) :
    RateLimitUsage × KVState :=
  let k := edgeKey key
  let raw := (kvGet st k now).getD "0"
  let next := jsNum raw + 1
  let ttlSec := (windowMs + 999) / 1000
  let st' := kvPut st k (toString next) (some ttlSec) now
  ({ used := next, remaining := MAX_SAFE_INTEGER - next,
     reset := (now + ttlSec * 1000) / 1000, limit := MAX_SAFE_INTEGER }, st')

/-- Embeds `EdgeStorage.decrement`, Cloudflare KV fallback: read the current
value (missing = "0"), write back `Math.max(0, prev - 1)` — which is
`Nat` subtraction here — with no TTL attached. -/
def edgeDecrementKV (st : KVState) (key : String) (now : Nat) : KVState :=
  let k := edgeKey key
  let raw := (kvGet st k now).getD "0"
  kvPut st k (toString (jsNum raw - 1)) none now

/-! ## Redis adapter's decrement script (`src/storage/redis.ts`,
`decrScript`): `GET`, return nil when the key is missing, `DECR` only
when the value is positive. -/

/-- Embeds the adapter's `decrScript` Lua program: a missing (or
expired) key is left untouched and nil is returned; a positive value
is decremented by `DECR` (which keeps the key's TTL); a zero value is
returned unchanged. -/
def redisEvalDecr (st : RedisState) (k : String) (now : Nat) : Option Nat × RedisState :=
  match redisGetLive st k now with
  | none => (none, st)
  | some e =>
      if 0 < e.value then
        (some (e.value - 1), alistSet st k { value := e.value - 1, expiresAt := e.expiresAt })
      else (some e.value, st)

/-! ## MongoDB adapter (`src/storage/mongodb.ts`).  A rate-limit
document has `count` and `expireAt` (epoch ms; the real collection
also relies on a passive TTL index for housekeeping, which does not
change any single operation's result). -/

/-- A document of the `rate_limits` collection. -/
structure MongoDoc where
  count : Nat
  expireAt : Nat
deriving DecidableEq, Repr

/-- The collection's contents, keyed by `_id`. -/
abbrev MongoState := List (String × MongoDoc)

/-- Embeds `MongoStorage`'s key prefixing (`next-limitr:` + key). -/
def mongoKey (key : String) : String := "next-limitr:" ++ key

/-- Embeds the atomic
`findOneAndUpdate({_id}, {$inc: {count: 1}, $setOnInsert: {expireAt}},
{upsert: true, returnDocument: "after"})`: an existing document gets
`count + 1` with `expireAt` untouched (`$setOnInsert` applies on
insert only); a missing `_id` is inserted with count 1 and the given
expiry.  Returns the post-update document. -/
def mongoFindOneAndUpdate (st : MongoState) (id : String) (expireAt : Nat) :
    MongoDoc × MongoState :=
  match alistLookup st id with
  | some d =>
      ({ count := d.count + 1, expireAt := d.expireAt },
       alistSet st id { count := d.count + 1, expireAt := d.expireAt })
  | none => ({ count := 1, expireAt := expireAt }, alistSet st id { count := 1, expireAt := expireAt })

/-- Embeds `MongoStorage.increment`: one atomic upsert, then
`ttl = Math.max(expireAt - now, 0)` (`Nat` subtraction) and
`reset = Math.floor((now + ttl) / 1000)` from the returned document's
stored expiry. -/
def mongoIncrement (st : MongoState) (key : String) (windowMs now : Nat) :
    RateLimitUsage × MongoState :=
  let dst := mongoFindOneAndUpdate st (mongoKey key) (now + windowMs)
  let ttl := dst.1.expireAt - now
  ({ used := dst.1.count, remaining := MAX_SAFE_INTEGER - dst.1.count,
     reset := (now + ttl) / 1000, limit := MAX_SAFE_INTEGER }, dst.2)

/-- Embeds `MongoStorage.decrement`:
`updateOne({_id, count: {$gt: 0}}, {$inc: {count: -1}})` — only a
document with a positive count is touched. -/
def mongoDecrement (st : MongoState) (key : String) : MongoState :=
  match alistLookup st (mongoKey key) with
  | some d =>
      if 0 < d.count then
        alistSet st (mongoKey key) { count := d.count - 1, expireAt := d.expireAt }
      else st
  | none => st

/-! ## PostgreSQL adapter (`src/storage/postgresql.ts`).  A row of the
`rate_limits` table has `count` and `expire_at` (epoch ms). -/

/-- A row of the `rate_limits` table. -/
structure PgRow where
  count : Nat
  expireAt : Nat
deriving DecidableEq, Repr

/-- The table's contents, keyed by `id`. -/
abbrev PgState := List (String × PgRow)

/-- Embeds `PostgresStorage`'s key prefixing (`next-limitr:` + key). -/
def pgKey (key : String) : String := "next-limitr:" ++ key

/-- Embeds the single upsert statement: `INSERT (id, 1, newExpire) ON
CONFLICT DO UPDATE SET count = CASE WHEN expire_at < now() THEN 1 ELSE
count + 1 END, expire_at = CASE WHEN expire_at < now() THEN
EXCLUDED.expire_at ELSE expire_at END RETURNING count, expire_at`. -/
def pgUpsertIncrement (st : PgState) (id : String) (newExpire now : Nat) : PgRow × PgState :=
  match alistLookup st id with
  | none =>
      ({ count := 1, expireAt := newExpire }, alistSet st id { count := 1, expireAt := newExpire })
  | some row =>
      if row.expireAt < now then
        ({ count := 1, expireAt := newExpire },
         alistSet st id { count := 1, expireAt := newExpire })
      else
        ({ count := row.count + 1, expireAt := row.expireAt },
         alistSet st id { count := row.count + 1, expireAt := row.expireAt })

/-- Embeds `PostgresStorage.increment`: the upsert above, then
`ttl = Math.max(expireAtMs - now, 0)` and
`reset = Math.floor((now + ttl) / 1000)` from the returned row. -/
def pgIncrement (st : PgState) (key : String) (windowMs now : Nat) :
    RateLimitUsage × PgState :=
  let rst := pgUpsertIncrement st (pgKey key) (now + windowMs) now
  let ttl := rst.1.expireAt - now
  ({ used := rst.1.count, remaining := MAX_SAFE_INTEGER - rst.1.count,
     reset := (now + ttl) / 1000, limit := MAX_SAFE_INTEGER }, rst.2)

/-- Embeds `PostgresStorage.decrement`:
`UPDATE rate_limits SET count = count - 1 WHERE id = $1 AND count > 0`. -/
def pgDecrement (st : PgState) (key : String) : PgState :=
  match alistLookup st (pgKey key) with
  | some row =>
      if 0 < row.count then
        alistSet st (pgKey key) { count := row.count - 1, expireAt := row.expireAt }
      else st
  | none => st

/-! ## JSON-like values and `deepMerge` (`src/middleware.ts`).
`JVal` models a JS value as `deepMerge` discriminates them:
numbers/strings/booleans and functions (all non-array non-plain-object
values, fully replaced on merge), arrays, and plain objects. -/

/-- A JS value as seen by `deepMerge`; `func` carries an opaque tag
standing for a function value (`typeof f === "function"`, so it is
neither an array nor a plain object). -/
inductive JVal : Type where
  | num (n : Int)
  | str (s : String)
  | boolv (b : Bool)
  | func (tag : Nat)
  | arr (elems : List JVal)
  | obj (fields : List (String × JVal))

mutual
/-- Embeds `deepMerge(target, source)` with both arguments present: arrays in
the source replace, two plain objects merge key-by-key, everything
else is replaced by the source. -/
def deepMergeV : JVal → JVal → JVal
  | _, JVal.arr a => JVal.arr a
  | JVal.obj tf, JVal.obj sf => JVal.obj (mergeGo tf tf sf)
  | _, s => s

/-- The object-merge loop: `out` starts as a copy of the target, then
each source key is assigned in enumeration order (the merged value is
computed against the original target, as in the source). -/
def mergeGo (t out : List (String × JVal)) : List (String × JVal) → List (String × JVal)
  | [] => out
  | (k, sv) :: rest => mergeGo t (alistSet out k (mergeField (alistLookup t k) sv)) rest
termination_by l => sizeOf l

/-- One key's merge: a source array replaces, matching plain objects
recurse, otherwise the source value wins. -/
def mergeField : Option JVal → JVal → JVal
  | _, JVal.arr a => JVal.arr a
  | some (JVal.obj tf), JVal.obj sf => JVal.obj (mergeGo tf tf sf)
  | _, s => s
termination_by _t s => sizeOf s
end

/-- Embeds `deepMerge` including the `undefined` handling of its first two
lines (`target === undefined` returns `source ?? {}`, an undefined
source returns the target). -/
def deepMerge : Option JVal → Option JVal → JVal
  | none, none => JVal.obj []
  | none, some s => s
  | some t, none => t
  | some t, some s => deepMergeV t s

/-- Field access on a merged object (plain JS property read). -/
def jLookup : JVal → String → Option JVal
  | JVal.obj fields, k => alistLookup fields k
  | _, _ => none

/-! ## Route-override matching (`findRouteOverride`) -/

/-- JS `path.startsWith(pre)`. -/
def strStartsWith (s pre : String) : Bool := pre.data.isPrefixOf s.data

/-- JS `key.endsWith(suf)`. -/
def strEndsWith (s suf : String) : Bool := suf.data.isSuffixOf s.data

/-- JS `key.slice(0, -1)` (drop the final character). -/
def strDropLast (s : String) : String := String.mk s.data.dropLast

/-- The wildcard scan of `findRouteOverride`: first key that is the
literal `"*"`, or that ends in `"/*"` and whose prefix (with the
trailing `*` removed, keeping the slash) starts the pathname. -/
def scanRoutes {α : Type u} (pathname : String) : List (String × α) → Option α
  | [] => none
  | (k, v) :: rest =>
      if k = "*" then some v
      else if strEndsWith k "/*" && strStartsWith pathname (strDropLast k) then some v
      else scanRoutes pathname rest

/-- Embeds `findRouteOverride(map, pathname)`: exact key wins unconditionally
(`hasOwnProperty`), else the wildcard scan in enumeration order, else
no override. -/
def findRouteOverride {α : Type u} (map : Option (List (String × α))) (pathname : String) :
    Option α :=
  match map with
  | none => none
  | some m =>
      match alistLookup m pathname with
      | some v => some v
      | none => scanRoutes pathname m

/-! ## Request pipeline (`withRateLimit` / `rateLimitedHandler` in
`src/middleware.ts`) and webhook sink (`src/webhook.ts`) -/

/-- A thrown JS error: either one of the middleware's configuration
errors (tagged by the storage kind named in its message) or an
arbitrary error thrown by user code / a backend (opaque tag). -/
inductive Err : Type where
  | config (kind : String)
  | thrown (tag : Nat)
deriving DecidableEq, Repr

/-- The inbound `NextRequest` surface the middleware reads. -/
structure Request where
  path : String
  method : String
  headers : List (String × String)
deriving DecidableEq, Repr

/-- The outbound `NextResponse` surface: status, mutable headers, and
an opaque body. -/
structure Response where
  status : Nat
  headers : List (String × String)
  body : String
deriving DecidableEq, Repr

/-- Embeds `WebhookConfig`: URL, method (default "POST"), extra headers, and
an optional caller-supplied body-construction function (which, being
user code, may throw). -/
structure WebhookCfg where
  url : String
  method : String := "POST"
  headers : List (String × String) := []
  payload : Option (Request → RateLimitUsage → Except Err String) := none

/-- Storage-kind selector (`RateLimitOptions.storage`). -/
inductive StorageKind : Type where
  | memory | redis | mongodb | postgresql | edge
deriving DecidableEq, Repr

/-- A per-route override (`Partial<RateLimitOptions>`) restricted to
the primitive fields the theorems here exercise; `deepMerge` replaces
each present field wholesale, which `mergeOptions` reproduces. -/
structure RouteOverride where
  limit : Option Nat := none
  windowMs : Option Nat := none
  storage : Option StorageKind := none

/-- Embeds `RateLimitOptions` after the setup-time merge with
`DEFAULT_OPTIONS` (the structure defaults are exactly the middleware's
`DEFAULT_OPTIONS`: limit 100, 60000 ms windows, memory storage).
Config/client values only matter by presence, so they are `Option
Unit`; pluggable user functions return `Except` because they may
throw. -/
structure Options where
  limit : Nat := 100
  windowMs : Nat := 60000
  storage : StorageKind := .memory
  redisConfig : Option Unit := none
  redisClient : Option Unit := none
  mongoConfig : Option Unit := none
  mongoClient : Option Unit := none
  postgresConfig : Option Unit := none
  postgresClient : Option Unit := none
  edgeConfig : Option Unit := none
  routes : Option (List (String × RouteOverride)) := none
  webhook : Option WebhookCfg := none
  skip : Option (Request → Except Err Bool) := none
  keyGenerator : Option (Request → Except Err String) := none
  getLimitForRequest : Option (Request → Except Err Nat) := none
  onLimitReached : Option (Request → RateLimitUsage → Except Err Unit) := none
  handler : Option (Request → RateLimitUsage → Except Err Response) := none

/-- Network nondeterminism, fixed per request: what a non-memory
adapter's `increment` call would yield, and the webhook transport's
outcome (`Except.ok status` because axios is configured with
`validateStatus: () => true`, so only connection-level failures
throw). -/
structure Env where
  incrementOracle : Except Err RateLimitUsage
  transport : Except Err Nat

/-- What one invocation of the wrapped route produced: the settled
promise of `rateLimitedHandler` (`error` = rejected), how many times
the wrapped handler ran, and how many times `webhookHandler.notify`
was invoked. -/
structure Outcome where
  result : Except Err Response
  handlerCalls : Nat
  webhookCalls : Nat

/-- Embeds `deepMerge(globalOptions, matchedOverride)` on the typed options:
present primitive fields of the override replace the global value. -/
def mergeOptions (g : Options) (ov : RouteOverride) : Options :=
  { g with
    limit := ov.limit.getD g.limit,
    windowMs := ov.windowMs.getD g.windowMs,
    storage := ov.storage.getD g.storage }

/-- JS truthiness of a nullable string (`null` and `""` are falsy). -/
def jsTruthy : Option String → Option String
  | none => none
  | some s => if s = "" then none else some s

/-- Characters JS `String.prototype.trim` strips (the whitespace that
can occur in a forwarded-for header). -/
def isWsChar (c : Char) : Bool := c = ' ' || c = '\t' || c = '\n' || c = '\r'

/-- JS `s.trim()`. -/
def trimStr (s : String) : String :=
  String.mk (((s.data.dropWhile isWsChar).reverse.dropWhile isWsChar).reverse)

/-- JS `s.split(",")[0]`. -/
def takeUntilComma : List Char → List Char
  | [] => []
  | c :: cs => if c = ',' then [] else c :: takeUntilComma cs

/-- Embeds `getClientIp`: first hop of `x-forwarded-for` (trimmed), else
`x-real-ip`, else `x-client-ip`, else `"unknown"` — with JS `||`
falsiness on empty strings. -/
def getClientIp (req : Request) : String :=
  match jsTruthy (alistLookup req.headers "x-forwarded-for") with
  | some f => trimStr (String.mk (takeUntilComma f.data))
  | none =>
      match jsTruthy (alistLookup req.headers "x-real-ip") with
      | some v => v
      | none =>
          match jsTruthy (alistLookup req.headers "x-client-ip") with
          | some v => v
          | none => "unknown"

/-- The storage-initialization block of `rateLimitedHandler`: the
selected kind throws its configuration error when its required config
or client is missing (memory never throws). -/
def storageInit (o : Options) : Except Err Unit :=
  match o.storage with
  | .redis =>
      if o.redisConfig.isNone && o.redisClient.isNone then .error (.config "redis") else .ok ()
  | .mongodb =>
      if o.mongoConfig.isNone && o.mongoClient.isNone then .error (.config "mongodb") else .ok ()
  | .postgresql =>
      if o.postgresConfig.isNone && o.postgresClient.isNone then .error (.config "postgresql")
      else .ok ()
  | .edge => if o.edgeConfig.isNone then .error (.config "edge") else .ok ()
  | .memory => .ok ()

/-- Embeds `storage.increment(key, windowMs)` as the pipeline sees it.  The
memory adapter was constructed by `new MemoryStorage()` inside this
very invocation, so it counts on an empty map and cannot throw; every
other adapter goes over the network, so its result is the
environment's oracle. -/
def doIncrement (o : Options) (env : Env) (key : String) (w now : Nat) :
    Except Err RateLimitUsage :=
  match o.storage with
  | .memory => .ok (memIncrement ([] : MemState) key w now).1
  | _ => env.incrementOracle

/-- Embeds `Math.max(0, Math.ceil((reset * 1000 - Date.now()) / 1000))`. -/
def retryAfterSec (reset now : Nat) : Nat :=
  if reset * 1000 ≤ now then 0 else (reset * 1000 - now + 999) / 1000

/-- The default webhook body `{ip, path, method, timestamp, usage}`,
serialized (only its construction matters to the theorems). -/
def defaultBody (req : Request) (usage : RateLimitUsage) : String :=
  getClientIp req ++ " " ++ req.path ++ " " ++ req.method ++ " used=" ++ toString usage.used

/-- Embeds `WebhookHandler.notify` (`src/webhook.ts`): the body is built
BEFORE the try block, so a throwing caller-supplied `payload` function
escapes; inside the try, a transport failure or a non-2xx status is
only logged (axios is given `validateStatus: () => true`).  Returns
the log lines written. -/
def notifyRun (cfg : WebhookCfg) (req : Request) (usage : RateLimitUsage)
    (transport : Except Err Nat) : Except Err (List String) :=
  match (match cfg.payload with
         | some f => f req usage
         | none => .ok (defaultBody req usage)) with
  | .error e => .error e
  | .ok _ =>
      match transport with
      | .error _ => .ok ["Error sending webhook notification"]
      | .ok status =>
          if status < 200 || 300 ≤ status then .ok ["Webhook notification failed"]
          else .ok []

/-- Embeds `Object.entries(headers).forEach(([k, v]) => response.headers.set(k, v))`. -/
def stampHeaders (r : Response) (hs : List (String × String)) : Response :=
  hs.foldl (fun acc kv => { acc with headers := alistSet acc.headers kv.1 kv.2 }) r

/-- One invocation of the routes-aware `rateLimitedHandler`: resolve
the route override and merge it over the global options, construct the
storage adapter for this invocation (configuration errors throw here,
before the try block), run the skip/key/limit steps (whose errors also
escape — they precede the try block), then the guarded section: count,
decide, notify/deny or invoke-and-stamp, with any error inside it
caught and degraded to calling the wrapped handler directly
(fail-open). -/
def runRequest (globalOptions : Options) (handler : Request → Response) (env : Env)
    (req : Request) (now : Nat) : Outcome :=
  let finalOptions :=
    match findRouteOverride globalOptions.routes req.path with
    | some ov => mergeOptions globalOptions ov
    | none => globalOptions
  match storageInit finalOptions with
  | .error e => { result := .error e, handlerCalls := 0, webhookCalls := 0 }
  | .ok _ =>
    match (match finalOptions.skip with
           | some f => f req
           | none => .ok false : Except Err Bool) with
    | .error e => { result := .error e, handlerCalls := 0, webhookCalls := 0 }
    | .ok true => { result := .ok (handler req), handlerCalls := 1, webhookCalls := 0 }
    | .ok false =>
      match (match finalOptions.keyGenerator with
             | some f => f req
             | none => .ok (getClientIp req ++ "-" ++ req.path) : Except Err String) with
      | .error e => { result := .error e, handlerCalls := 0, webhookCalls := 0 }
      | .ok key =>
        match (match finalOptions.getLimitForRequest with
               | some f => f req
               | none => .ok finalOptions.limit : Except Err Nat) with
        | .error e => { result := .error e, handlerCalls := 0, webhookCalls := 0 }
        | .ok limit =>
          match doIncrement finalOptions env key finalOptions.windowMs now with
          | .error _ => { result := .ok (handler req), handlerCalls := 1, webhookCalls := 0 }
          | .ok usage =>
            let headers := [("X-RateLimit-Limit", toString limit),
                            ("X-RateLimit-Remaining", toString (limit - usage.used)),
                            ("X-RateLimit-Reset", toString usage.reset)]
            if limit < usage.used then
              let headers2 :=
                alistSet headers "Retry-After" (toString (retryAfterSec usage.reset now))
              let usageL := { usage with limit := limit }
              match (match finalOptions.webhook with
                     | some cfg => (notifyRun cfg req usageL env.transport, 1)
                     | none => (.ok [], 0) : Except Err (List String) × Nat) with
              | (.error _, wc) =>
                  { result := .ok (handler req), handlerCalls := 1, webhookCalls := wc }
              | (.ok _, wc) =>
                match (match finalOptions.onLimitReached with
                       | some f => f req usageL
                       | none => .ok () : Except Err Unit) with
                | .error _ =>
                    { result := .ok (handler req), handlerCalls := 1, webhookCalls := wc }
                | .ok _ =>
                  match finalOptions.handler with
                  | some h =>
                      match h req usageL with
                      | .error _ =>
                          { result := .ok (handler req), handlerCalls := 1, webhookCalls := wc }
                      | .ok r => { result := .ok r, handlerCalls := 0, webhookCalls := wc }
                  | none =>
                      { result := .ok { status := 429, headers := headers2,
                                        body := "Too Many Requests" },
                        handlerCalls := 0, webhookCalls := wc }
            else
              { result := .ok (stampHeaders (handler req) headers),
                handlerCalls := 1, webhookCalls := 0 }

/-! ## Concrete scenario data used by closed theorems -/

/-- A plain GET request with a forwarded client address. -/
def sampleReq : Request :=
  { path := "/api/data", method := "GET", headers := [("x-forwarded-for", "1.2.3.4")] }

/-- A wrapped handler answering 200 with no headers of its own. -/
def sampleHandler : Request → Response := fun _ => { status := 200, headers := [], body := "hello" }

/-- A benign environment (never consulted on the memory path). -/
def sampleEnv : Env :=
  { incrementOracle := .ok { used := 0, remaining := 0, reset := 0, limit := 0 },
    transport := .ok 200 }

/-- The spec's pipeline scenario configuration: `limit = 2,
windowMs = 60000`, default memory storage, a webhook sink. -/
def scenarioOpts : Options :=
  { limit := 2, windowMs := 60000, webhook := some { url := "https://hook.example" } }

/-! ## Association-list lemmas -/

theorem alistLookup_set_self {α : Type u} (l : List (String × α)) (k : String) (v : α) :
    alistLookup (alistSet l k v) k = some v := by
  induction l with
  | nil => simp [alistSet, alistLookup]
  | cons hd tl ih =>
      by_cases h : hd.1 = k
      · simp [alistSet, alistLookup, h]
      · simpa [alistSet, alistLookup, h] using ih

theorem alistLookup_set_ne {α : Type u} (l : List (String × α)) (k k' : String) (v : α)
    (h : k ≠ k') : alistLookup (alistSet l k v) k' = alistLookup l k' := by
  induction l with
  | nil => simp [alistSet, alistLookup, h]
  | cons hd tl ih =>
      by_cases hk : hd.1 = k
      · simp [alistSet, alistLookup, hk, h]
      · simp [alistSet, alistLookup, hk, ih]

theorem alistLookup_eq_none_of_not_mem {α : Type u} (l : List (String × α)) (k : String)
    (h : k ∉ l.map Prod.fst) : alistLookup l k = none := by
  induction l with
  | nil => rfl
  | cons hd tl ih =>
      simp only [List.map_cons, List.mem_cons] at h
      push_neg at h
      simp [alistLookup, Ne.symm h.1, ih h.2]

theorem alistLookup_filter_none {α : Type u} (l : List (String × α)) (k : String)
    (p : String × α → Bool) (h : alistLookup l k = none) :
    alistLookup (l.filter p) k = none := by
  induction l with
  | nil => rfl
  | cons hd tl ih =>
      by_cases hk : hd.1 = k
      · simp [alistLookup, hk] at h
      · simp only [alistLookup, hk, if_false] at h
        by_cases hp : p hd
        · simp [List.filter_cons, hp, alistLookup, hk, ih h]
        · simp [List.filter_cons, hp, ih h]

theorem alistLookup_filter_keep {α : Type u} (l : List (String × α)) (k : String) (v : α)
    (p : String × α → Bool) (h : alistLookup l k = some v) (hp : p (k, v) = true) :
    alistLookup (l.filter p) k = some v := by
  induction l with
  | nil => simp [alistLookup] at h
  | cons hd tl ih =>
      by_cases hk : hd.1 = k
      · simp only [alistLookup, hk, if_true] at h
        have hhd : hd = (k, v) := by
          cases hd; simp_all
        subst hhd
        simp [List.filter_cons, hp, alistLookup]
      · simp only [alistLookup, hk, if_false] at h
        by_cases hpp : p hd
        · simp [List.filter_cons, hpp, alistLookup, hk, ih h]
        · simp [List.filter_cons, hpp, ih h]

theorem alistLookup_filter_drop {α : Type u} (l : List (String × α)) (k : String) (v : α)
    (p : String × α → Bool) (hnd : (l.map Prod.fst).Nodup)
    (h : alistLookup l k = some v) (hp : p (k, v) = false) :
    alistLookup (l.filter p) k = none := by
  induction l with
  | nil => simp [alistLookup] at h
  | cons hd tl ih =>
      simp only [List.map_cons, List.nodup_cons] at hnd
      by_cases hk : hd.1 = k
      · simp only [alistLookup, hk, if_true] at h
        have hhd : hd = (k, v) := by
          cases hd; simp_all
        subst hhd
        have htl : alistLookup tl k = none := by
          apply alistLookup_eq_none_of_not_mem
          simpa using hnd.1
        simp [List.filter_cons, hp, alistLookup_filter_none tl k p htl]
      · simp only [alistLookup, hk, if_false] at h
        by_cases hpp : p hd
        · simp [List.filter_cons, hpp, alistLookup, hk, ih hnd.2 h]
        · simp [List.filter_cons, hpp, ih hnd.2 h]

/-! ## Memory-adapter lemmas -/

theorem memIncrement_fresh (st : MemState) (key : String) (w now : Nat)
    (h : alistLookup (memCleanup st now) key = none) :
    memIncrement st key w now =
      ({ used := 1, remaining := MAX_SAFE_INTEGER - 1,
         reset := (now + w) / 1000, limit := MAX_SAFE_INTEGER },
       alistSet (memCleanup st now) key { count := 1, resetTime := now + w }) := by
  simp [memIncrement, h]

theorem memIncrement_live (st : MemState) (key : String) (w now c r : Nat)
    (h : alistLookup (memCleanup st now) key = some { count := c, resetTime := r })
    (hlive : now < r) :
    memIncrement st key w now =
      ({ used := c + 1, remaining := MAX_SAFE_INTEGER - (c + 1),
         reset := r / 1000, limit := MAX_SAFE_INTEGER },
       alistSet (memCleanup st now) key { count := c + 1, resetTime := r }) := by
  simp [memIncrement, h]
  omega

/-- A record found by `lookup` that is still live survives the
cleanup sweep unchanged (its entry is kept by the filter, and it stays
the first entry with its key). -/
theorem memCleanup_keeps_live (st : MemState) (key : String) (now : Nat)
    (rec' : MemoryRecord) (h : alistLookup st key = some rec') (hlive : now < rec'.resetTime) :
    alistLookup (memCleanup st now) key = some rec' := by
  apply alistLookup_filter_keep _ _ _ _ h
  simpa using hlive

/-- Auxiliary induction for repeated increments: starting from a map
whose first entry for `key` is a live record `⟨c, r⟩`, running one
increment at `t < r` and then one per time of `ts` (all `< r`) ends
with `used = c + 1 + ts.length` and the same `resetTime`. -/
theorem memSeqFinal_live (key : String) (w : Nat) :
    ∀ (ts : List Nat) (st : MemState) (t c r : Nat),
      alistLookup st key = some { count := c, resetTime := r } →
      t < r → (∀ t' ∈ ts, t' < r) →
      (memSeqFinal st key w t ts).1.used = c + 1 + ts.length ∧
      (memSeqFinal st key w t ts).1.reset = r / 1000 ∧
      alistLookup (memSeqFinal st key w t ts).2 key =
        some { count := c + 1 + ts.length, resetTime := r } := by
  intro ts
  induction ts with
  | nil =>
      intro st t c r h ht _
      have hc := memCleanup_keeps_live st key t { count := c, resetTime := r } h ht
      have := memIncrement_live st key w t c r hc ht
      simp [memSeqFinal, this, alistLookup_set_self]
  | cons t' ts ih =>
      intro st t c r h ht hts
      have hc := memCleanup_keeps_live st key t { count := c, resetTime := r } h ht
      have hstep := memIncrement_live st key w t c r hc ht
      have hlook : alistLookup (memIncrement st key w t).2 key =
          some { count := c + 1, resetTime := r } := by
        rw [hstep]; exact alistLookup_set_self _ _ _
      have ht' : t' < r := hts t' (by simp)
      have hrest : ∀ u ∈ ts, u < r := fun u hu => hts u (by simp [hu])
      have := ih (memIncrement st key w t).2 t' (c + 1) r hlook ht' hrest
      simpa [memSeqFinal, Nat.add_assoc, Nat.add_comm, Nat.add_left_comm] using this

/-! ## Claim C5 -/

/-- C5: on the in-memory adapter, (a) the first increment on a fresh
or expired key (equivalently: a key absent after the cleanup sweep)
returns `used = 1` with `reset = ⌊(now + w) / 1000⌋`; (b) the n-th of
n increments within one live window returns `used = n`; (c) the first
increment after a key's reset time has elapsed returns `used = 1`
again, not n+1. -/
theorem memory_increment_window_behaviour :
    (∀ (st : MemState) (key : String) (w now : Nat),
        alistLookup (memCleanup st now) key = none →
        (memIncrement st key w now).1.used = 1 ∧
        (memIncrement st key w now).1.reset = (now + w) / 1000) ∧
    (∀ (st : MemState) (key : String) (w t0 : Nat) (rest : List Nat),
        alistLookup (memCleanup st t0) key = none →
        (∀ t ∈ rest, t < t0 + w) →
        (memSeqFinal st key w t0 rest).1.used = rest.length + 1) ∧
    (∀ (st : MemState) (key : String) (w now : Nat) (r : MemoryRecord),
        (st.map Prod.fst).Nodup →
        alistLookup st key = some r → r.resetTime ≤ now →
        (memIncrement st key w now).1.used = 1 ∧
        (memIncrement st key w now).1.reset = (now + w) / 1000) := by
  refine ⟨?_, ?_, ?_⟩
  · intro st key w now h
    rw [memIncrement_fresh st key w now h]
    exact ⟨rfl, rfl⟩
  · intro st key w t0 rest h hrest
    cases rest with
    | nil =>
        rw [memSeqFinal, memIncrement_fresh st key w t0 h]
        rfl
    | cons t1 ts =>
        have hfresh := memIncrement_fresh st key w t0 h
        have hlook : alistLookup (memIncrement st key w t0).2 key =
            some { count := 1, resetTime := t0 + w } := by
          rw [hfresh]; exact alistLookup_set_self _ _ _
        have ht1 : t1 < t0 + w := hrest t1 (by simp)
        have hts : ∀ u ∈ ts, u < t0 + w := fun u hu => hrest u (by simp [hu])
        have := (memSeqFinal_live key w ts (memIncrement st key w t0).2 t1 1 (t0 + w)
          hlook ht1 hts).1
        simp only [memSeqFinal, List.length_cons]
        omega
  · intro st key w now r hnd h hexp
    have hdropped : alistLookup (memCleanup st now) key = none := by
      apply alistLookup_filter_drop st key r _ hnd h
      simpa using hexp
    rw [memIncrement_fresh st key w now hdropped]
    exact ⟨rfl, rfl⟩

/-- Witness for C5 at concrete inputs: key "k" on an empty map at time
0 with a 60000 ms window; two more increments at 1000 and 2000; and a
rotation at time 70000 on the resulting singleton map. -/
theorem memory_increment_window_behaviour_witness :
    ((memIncrement ([] : MemState) "k" 60000 0).1.used = 1 ∧
     (memIncrement ([] : MemState) "k" 60000 0).1.reset = (0 + 60000) / 1000) ∧
    (memSeqFinal ([] : MemState) "k" 60000 0 [1000, 2000]).1.used = 3 ∧
    ((memIncrement [("k", { count := 3, resetTime := 60000 })] "k" 60000 70000).1.used = 1 ∧
     (memIncrement [("k", { count := 3, resetTime := 60000 })] "k" 60000 70000).1.reset =
       (70000 + 60000) / 1000) := by
  refine ⟨?_, ?_, ?_⟩
  · exact memory_increment_window_behaviour.1 [] "k" 60000 0 (by decide)
  · have := memory_increment_window_behaviour.2.1 [] "k" 60000 0 [1000, 2000]
      (by decide) (by decide)
    simpa using this
  · exact memory_increment_window_behaviour.2.2 [("k", { count := 3, resetTime := 60000 })]
      "k" 60000 70000 { count := 3, resetTime := 60000 } (by decide) (by decide) (by decide)

/-! ## Claim C6 -/

/-- C6 (amended): the window expiry is fixed while the window is live
for every adapter except the Cloudflare KV edge variant — the memory
adapter's bump branch keeps `resetTime` and reports `reset` from the
live window; the Redis/Upstash Lua script only issues `PEXPIRE` when
`PTTL < 0`, so a live window's expiry and returned ttl come from the
existing window; MongoDB's `$setOnInsert` sets `expireAt` on insert
only, so an existing document keeps it and `reset` derives from the
stored value; and PostgreSQL's upsert keeps `expire_at` and increments
whenever the stored expiry is not in the past.  (The Cloudflare KV
edge variant violates this; see the counterexample.) -/
theorem live_window_expiry_fixed :
    (∀ (st : MemState) (key : String) (w now c r : Nat),
        alistLookup (memCleanup st now) key = some { count := c, resetTime := r } →
        now < r →
        (memIncrement st key w now).1.reset = r / 1000 ∧
        alistLookup (memIncrement st key w now).2 key =
          some { count := c + 1, resetTime := r }) ∧
    (∀ (st : RedisState) (k : String) (w now v x : Nat),
        alistLookup st k = some { value := v, expiresAt := some x } →
        now < x →
        (redisEvalIncr st k w now).1 = (v + 1, (x : Int) - now) ∧
        alistLookup (redisEvalIncr st k w now).2 k =
          some { value := v + 1, expiresAt := some x }) ∧
    (∀ (st : MongoState) (key : String) (w now : Nat) (d : MongoDoc),
        alistLookup st (mongoKey key) = some d →
        now < d.expireAt →
        (mongoIncrement st key w now).1.reset = d.expireAt / 1000 ∧
        alistLookup (mongoIncrement st key w now).2 (mongoKey key) =
          some { count := d.count + 1, expireAt := d.expireAt }) ∧
    (∀ (st : PgState) (key : String) (w now : Nat) (row : PgRow),
        alistLookup st (pgKey key) = some row →
        now < row.expireAt →
        (pgIncrement st key w now).1.reset = row.expireAt / 1000 ∧
        alistLookup (pgIncrement st key w now).2 (pgKey key) =
          some { count := row.count + 1, expireAt := row.expireAt }) := by
  refine ⟨?_, ?_, ?_, ?_⟩
  · intro st key w now c r h hlive
    rw [memIncrement_live st key w now c r h hlive]
    exact ⟨rfl, alistLookup_set_self _ _ _⟩
  · intro st k w now v x h hlive
    have hlv : redisLiveAt { value := v, expiresAt := some x } now = true := by
      simp [redisLiveAt, hlive]
    have hincr : redisIncrCmd st k now =
        (v + 1, alistSet st k { value := v + 1, expiresAt := some x }) := by
      simp [redisIncrCmd, redisGetLive, h, hlv]
    have hlook : alistLookup (alistSet st k { value := v + 1, expiresAt := some x }) k =
        some { value := v + 1, expiresAt := some x } := alistLookup_set_self _ _ _
    have httl : redisPTTLCmd (alistSet st k { value := v + 1, expiresAt := some x }) k now =
        (x : Int) - now := by
      simp [redisPTTLCmd, redisGetLive, hlook, redisLiveAt, hlive]
    have hpos : ¬ ((x : Int) - now < 0) := by omega
    constructor
    · simp [redisEvalIncr, hincr, httl, hpos]
    · simp [redisEvalIncr, hincr, httl, hpos, hlook]
  · intro st key w now d h hlive
    have hres : (now + (d.expireAt - now)) / 1000 = d.expireAt / 1000 := by
      congr 1
      omega
    constructor
    · simp [mongoIncrement, mongoFindOneAndUpdate, h, hres]
    · simp [mongoIncrement, mongoFindOneAndUpdate, h, alistLookup_set_self]
  · intro st key w now row h hlive
    have hnrot : ¬ (row.expireAt < now) := by omega
    have hres : (now + (row.expireAt - now)) / 1000 = row.expireAt / 1000 := by
      congr 1
      omega
    constructor
    · simp [pgIncrement, pgUpsertIncrement, h, hnrot, hres]
    · simp [pgIncrement, pgUpsertIncrement, h, hnrot, alistLookup_set_self]

/-- Witness for C6 (amended): live memory, Redis, MongoDB and
PostgreSQL windows at time 1000, all created at 0 with a 60000 ms
window. -/
theorem live_window_expiry_fixed_witness :
    ((memIncrement [("k", { count := 1, resetTime := 60000 })] "k" 60000 1000).1.reset =
        60000 / 1000 ∧
     alistLookup (memIncrement [("k", { count := 1, resetTime := 60000 })] "k" 60000 1000).2
        "k" = some { count := 2, resetTime := 60000 }) ∧
    ((redisEvalIncr [("r", { value := 1, expiresAt := some 60000 })] "r" 60000 1000).1 =
        (2, (60000 : Int) - 1000) ∧
     alistLookup (redisEvalIncr [("r", { value := 1, expiresAt := some 60000 })]
        "r" 60000 1000).2 "r" = some { value := 2, expiresAt := some 60000 }) ∧
    ((mongoIncrement [(mongoKey "k", { count := 1, expireAt := 60000 })]
        "k" 60000 1000).1.reset = 60000 / 1000 ∧
     alistLookup (mongoIncrement [(mongoKey "k", { count := 1, expireAt := 60000 })]
        "k" 60000 1000).2 (mongoKey "k") = some { count := 2, expireAt := 60000 }) ∧
    ((pgIncrement [(pgKey "k", { count := 1, expireAt := 60000 })]
        "k" 60000 1000).1.reset = 60000 / 1000 ∧
     alistLookup (pgIncrement [(pgKey "k", { count := 1, expireAt := 60000 })]
        "k" 60000 1000).2 (pgKey "k") = some { count := 2, expireAt := 60000 }) := by
  refine ⟨?_, ?_, ?_, ?_⟩
  · exact live_window_expiry_fixed.1 [("k", { count := 1, resetTime := 60000 })]
      "k" 60000 1000 1 60000 (by decide) (by decide)
  · exact live_window_expiry_fixed.2.1 [("r", { value := 1, expiresAt := some 60000 })]
      "r" 60000 1000 1 60000 (by decide) (by decide)
  · exact live_window_expiry_fixed.2.2.1 [(mongoKey "k", { count := 1, expireAt := 60000 })]
      "k" 60000 1000 { count := 1, expireAt := 60000 } rfl (by decide)
  · exact live_window_expiry_fixed.2.2.2 [(pgKey "k", { count := 1, expireAt := 60000 })]
      "k" 60000 1000 { count := 1, expireAt := 60000 } rfl (by decide)

/-- C6 counterexample: on the Cloudflare KV edge adapter, the second
increment inside the same live window both re-extends the stored
expiry (60000 → 61000 ms) and reports a later `reset` (60 → 61 s), so
"the returned reset stays that of the live window" fails for "every
storage adapter". -/
theorem edge_kv_reset_recomputed :
    (edgeIncrementKV ([] : KVState) "k" 60000 0).1.reset = 60 ∧
    (edgeIncrementKV (edgeIncrementKV ([] : KVState) "k" 60000 0).2 "k" 60000 1000).1.used
      = 2 ∧
    (edgeIncrementKV (edgeIncrementKV ([] : KVState) "k" 60000 0).2 "k" 60000 1000).1.reset
      = 61 ∧
    alistLookup (edgeIncrementKV ([] : KVState) "k" 60000 0).2 (edgeKey "k") =
      some { value := "1", expiresAt := some 60000 } ∧
    alistLookup (edgeIncrementKV (edgeIncrementKV ([] : KVState) "k" 60000 0).2
        "k" 60000 1000).2 (edgeKey "k") =
      some { value := "2", expiresAt := some 61000 } := by
  refine ⟨rfl, rfl, rfl, rfl, rfl⟩

/-! ## Claim C7 -/

/-- C7 (amended): on the memory, Redis/Upstash-script, MongoDB and
PostgreSQL adapters, decrement never drives the count below zero, has
no effect on a missing (or, for Redis, expired) key or a zero count,
and never raises the counter, creates a window, or changes a window's
expiry; on the Cloudflare KV edge adapter the written value is still
the floored `prev - 1` — but the write always happens, dropping the
TTL and creating an entry even for a missing key (see the
counterexample). -/
theorem decrement_floor_and_noop :
    ((∀ (st : MemState) (key : String),
        alistLookup st key = none → memDecrement st key = st) ∧
     (∀ (st : MemState) (key : String) (r : MemoryRecord),
        alistLookup st key = some r → 0 < r.count →
        memDecrement st key =
          alistSet st key { count := r.count - 1, resetTime := r.resetTime }) ∧
     (∀ (st : MemState) (key : String) (r : MemoryRecord),
        alistLookup st key = some r → r.count = 0 → memDecrement st key = st)) ∧
    ((∀ (st : RedisState) (k : String) (now : Nat),
        redisGetLive st k now = none → redisEvalDecr st k now = (none, st)) ∧
     (∀ (st : RedisState) (k : String) (now : Nat) (e : RedisEntry),
        redisGetLive st k now = some e → 0 < e.value →
        redisEvalDecr st k now =
          (some (e.value - 1),
           alistSet st k { value := e.value - 1, expiresAt := e.expiresAt })) ∧
     (∀ (st : RedisState) (k : String) (now : Nat) (e : RedisEntry),
        redisGetLive st k now = some e → e.value = 0 →
        redisEvalDecr st k now = (some 0, st))) ∧
    ((∀ (st : MongoState) (key : String),
        alistLookup st (mongoKey key) = none → mongoDecrement st key = st) ∧
     (∀ (st : MongoState) (key : String) (d : MongoDoc),
        alistLookup st (mongoKey key) = some d → 0 < d.count →
        mongoDecrement st key =
          alistSet st (mongoKey key) { count := d.count - 1, expireAt := d.expireAt }) ∧
     (∀ (st : MongoState) (key : String) (d : MongoDoc),
        alistLookup st (mongoKey key) = some d → d.count = 0 → mongoDecrement st key = st)) ∧
    ((∀ (st : PgState) (key : String),
        alistLookup st (pgKey key) = none → pgDecrement st key = st) ∧
     (∀ (st : PgState) (key : String) (row : PgRow),
        alistLookup st (pgKey key) = some row → 0 < row.count →
        pgDecrement st key =
          alistSet st (pgKey key) { count := row.count - 1, expireAt := row.expireAt }) ∧
     (∀ (st : PgState) (key : String) (row : PgRow),
        alistLookup st (pgKey key) = some row → row.count = 0 → pgDecrement st key = st)) ∧
    (∀ (st : KVState) (key : String) (now : Nat),
        alistLookup (edgeDecrementKV st key now) (edgeKey key) =
          some { value := toString (jsNum ((kvGet st (edgeKey key) now).getD "0") - 1),
                 expiresAt := none }) := by
  refine ⟨⟨?_, ?_, ?_⟩, ⟨?_, ?_, ?_⟩, ⟨?_, ?_, ?_⟩, ⟨?_, ?_, ?_⟩, ?_⟩
  · intro st key h; simp [memDecrement, h]
  · intro st key r h hc; simp [memDecrement, h, hc]
  · intro st key r h hc; simp [memDecrement, h, hc]
  · intro st k now h; simp [redisEvalDecr, h]
  · intro st k now e h hc; simp [redisEvalDecr, h, hc]
  · intro st k now e h hc; simp [redisEvalDecr, h, hc]
  · intro st key h; simp [mongoDecrement, h]
  · intro st key d h hc; simp [mongoDecrement, h, hc]
  · intro st key d h hc; simp [mongoDecrement, h, hc]
  · intro st key h; simp [pgDecrement, h]
  · intro st key row h hc; simp [pgDecrement, h, hc]
  · intro st key row h hc; simp [pgDecrement, h, hc]
  · intro st key now
    simp [edgeDecrementKV, kvPut, Option.map, alistLookup_set_self]

/-- Witness for C7 (amended) at concrete inputs, one per adapter:
positive-count decrements on memory, Redis, MongoDB and PostgreSQL, a
missing-key no-op on memory, and the Cloudflare KV write-back. -/
theorem decrement_floor_and_noop_witness :
    memDecrement ([] : MemState) "a" = ([] : MemState) ∧
    memDecrement [("a", { count := 2, resetTime := 99 })] "a" =
      alistSet [("a", { count := 2, resetTime := 99 })] "a"
        { count := 1, resetTime := 99 } ∧
    redisEvalDecr [("r", { value := 2, expiresAt := some 60000 })] "r" 5 =
      (some 1, alistSet [("r", { value := 2, expiresAt := some 60000 })] "r"
        { value := 1, expiresAt := some 60000 }) ∧
    mongoDecrement [(mongoKey "a", { count := 2, expireAt := 60000 })] "a" =
      alistSet [(mongoKey "a", { count := 2, expireAt := 60000 })] (mongoKey "a")
        { count := 1, expireAt := 60000 } ∧
    pgDecrement [(pgKey "a", { count := 2, expireAt := 60000 })] "a" =
      alistSet [(pgKey "a", { count := 2, expireAt := 60000 })] (pgKey "a")
        { count := 1, expireAt := 60000 } ∧
    alistLookup (edgeDecrementKV [(edgeKey "a", { value := "3", expiresAt := none })] "a" 5)
        (edgeKey "a") =
      some { value := toString
               (jsNum ((kvGet [(edgeKey "a", { value := "3", expiresAt := none })]
                  (edgeKey "a") 5).getD "0") - 1),
             expiresAt := none } := by
  refine ⟨?_, ?_, ?_, ?_, ?_, ?_⟩
  · exact decrement_floor_and_noop.1.1 [] "a" (by decide)
  · exact decrement_floor_and_noop.1.2.1 [("a", { count := 2, resetTime := 99 })] "a"
      { count := 2, resetTime := 99 } (by decide) (by decide)
  · exact decrement_floor_and_noop.2.1.2.1 [("r", { value := 2, expiresAt := some 60000 })]
      "r" 5 { value := 2, expiresAt := some 60000 } (by decide) (by decide)
  · exact decrement_floor_and_noop.2.2.1.2.1
      [(mongoKey "a", { count := 2, expireAt := 60000 })] "a"
      { count := 2, expireAt := 60000 } rfl (by decide)
  · exact decrement_floor_and_noop.2.2.2.1.2.1
      [(pgKey "a", { count := 2, expireAt := 60000 })] "a"
      { count := 2, expireAt := 60000 } rfl (by decide)
  · exact decrement_floor_and_noop.2.2.2.2 [(edgeKey "a", { value := "3", expiresAt := none })]
      "a" 5

/-- C7 counterexample: on the Cloudflare KV edge adapter, decrementing
a key that does not exist writes a fresh zero-valued entry (with no
expiry) into the store, so "has no effect on a key that does not
exist" fails for "every storage adapter". -/
theorem edge_kv_decrement_creates_entry :
    edgeDecrementKV ([] : KVState) "k" 0 =
      [("next-limitr:k", { value := "0", expiresAt := none })] ∧
    edgeDecrementKV ([] : KVState) "k" 0 ≠ ([] : KVState) := by
  exact ⟨rfl, by decide⟩

/-! ## deepMerge lemmas -/

theorem mergeField_num (o : Option JVal) (n : Int) :
    mergeField o (JVal.num n) = JVal.num n := by
  match o with
  | none => simp [mergeField]
  | some v => cases v <;> simp [mergeField]

theorem mergeField_func (o : Option JVal) (tag : Nat) :
    mergeField o (JVal.func tag) = JVal.func tag := by
  match o with
  | none => simp [mergeField]
  | some v => cases v <;> simp [mergeField]

theorem mergeField_arr (o : Option JVal) (a : List JVal) :
    mergeField o (JVal.arr a) = JVal.arr a := by
  match o with
  | none => simp [mergeField]
  | some v => cases v <;> simp [mergeField]

theorem mergeField_obj_obj (tn sn : List (String × JVal)) :
    mergeField (some (JVal.obj tn)) (JVal.obj sn) = deepMergeV (JVal.obj tn) (JVal.obj sn) := by
  simp [mergeField, deepMergeV]

theorem deepMergeV_obj_obj (tf sf : List (String × JVal)) :
    deepMergeV (JVal.obj tf) (JVal.obj sf) = JVal.obj (mergeGo tf tf sf) := by
  simp [deepMergeV]

/-- The object-merge loop read back through `lookup`: for source
objects with unique keys (every real JS object), the merged object's
field at `k` is the merged source field when the source has one, and
the accumulator's field otherwise. -/
theorem mergeGo_lookup (t : List (String × JVal)) (k : String) :
    ∀ (so out : List (String × JVal)), (so.map Prod.fst).Nodup →
      alistLookup (mergeGo t out so) k =
        (match alistLookup so k with
         | some sv => some (mergeField (alistLookup t k) sv)
         | none => alistLookup out k) := by
  intro so
  induction so with
  | nil => intro out _; simp [mergeGo, alistLookup]
  | cons hd rest ih =>
      intro out hnd
      simp only [List.map_cons, List.nodup_cons] at hnd
      obtain ⟨k', sv⟩ := hd
      rw [mergeGo]
      by_cases hk : k' = k
      · subst hk
        have hrest : alistLookup rest k' = none := by
          apply alistLookup_eq_none_of_not_mem
          simpa using hnd.1
        rw [ih _ hnd.2]
        simp [alistLookup, hrest, alistLookup_set_self]
      · rw [ih _ hnd.2]
        simp only [alistLookup, hk, if_false]
        cases alistLookup rest k with
        | none => simp [alistLookup_set_ne out k' k _ hk]
        | some sv' => simp

/-! ## Claim C8 -/

/-- C8: the configuration deep-merge replaces primitive-valued and
function-valued fields of the lower layer with the higher layer's
value, merges fields that are plain objects in both layers key-by-key
recursively, replaces array-valued fields wholesale (never
concatenating), and keeps lower-layer fields the higher layer does not
mention. -/
theorem deep_merge_layering (tf sf : List (String × JVal)) (k : String)
    (hnd : (sf.map Prod.fst).Nodup) :
    (∀ n : Int, alistLookup sf k = some (JVal.num n) →
        jLookup (deepMergeV (JVal.obj tf) (JVal.obj sf)) k = some (JVal.num n)) ∧
    (∀ tag : Nat, alistLookup sf k = some (JVal.func tag) →
        jLookup (deepMergeV (JVal.obj tf) (JVal.obj sf)) k = some (JVal.func tag)) ∧
    (∀ a : List JVal, alistLookup sf k = some (JVal.arr a) →
        jLookup (deepMergeV (JVal.obj tf) (JVal.obj sf)) k = some (JVal.arr a)) ∧
    (∀ tn sn : List (String × JVal),
        alistLookup tf k = some (JVal.obj tn) → alistLookup sf k = some (JVal.obj sn) →
        jLookup (deepMergeV (JVal.obj tf) (JVal.obj sf)) k =
          some (deepMergeV (JVal.obj tn) (JVal.obj sn))) ∧
    (alistLookup sf k = none →
        jLookup (deepMergeV (JVal.obj tf) (JVal.obj sf)) k = alistLookup tf k) := by
  have hbase : jLookup (deepMergeV (JVal.obj tf) (JVal.obj sf)) k =
      (match alistLookup sf k with
       | some sv => some (mergeField (alistLookup tf k) sv)
       | none => alistLookup tf k) := by
    rw [deepMergeV_obj_obj, jLookup, mergeGo_lookup tf k sf tf hnd]
  refine ⟨?_, ?_, ?_, ?_, ?_⟩
  · intro n h; rw [hbase, h]; simp [mergeField_num]
  · intro tag h; rw [hbase, h]; simp [mergeField_func]
  · intro a h; rw [hbase, h]; simp [mergeField_arr]
  · intro tn sn ht hs; rw [hbase, hs, ht]; simp [mergeField_obj_obj]
  · intro h; rw [hbase, h]

/-- Witness for C8 on a concrete pair of layers: target
`{a: 1, n: {x: 7}, keep: 9, l: [1]}`, source
`{a: 2, f: func 3, l: [5], n: {x: 8}}`. -/
theorem deep_merge_layering_witness :
    (jLookup (deepMergeV
        (JVal.obj [("a", JVal.num 1), ("n", JVal.obj [("x", JVal.num 7)]),
                   ("keep", JVal.num 9), ("l", JVal.arr [JVal.num 1])])
        (JVal.obj [("a", JVal.num 2), ("f", JVal.func 3), ("l", JVal.arr [JVal.num 5]),
                   ("n", JVal.obj [("x", JVal.num 8)])])) "a" = some (JVal.num 2)) ∧
    (jLookup (deepMergeV
        (JVal.obj [("a", JVal.num 1), ("n", JVal.obj [("x", JVal.num 7)]),
                   ("keep", JVal.num 9), ("l", JVal.arr [JVal.num 1])])
        (JVal.obj [("a", JVal.num 2), ("f", JVal.func 3), ("l", JVal.arr [JVal.num 5]),
                   ("n", JVal.obj [("x", JVal.num 8)])])) "f" = some (JVal.func 3)) ∧
    (jLookup (deepMergeV
        (JVal.obj [("a", JVal.num 1), ("n", JVal.obj [("x", JVal.num 7)]),
                   ("keep", JVal.num 9), ("l", JVal.arr [JVal.num 1])])
        (JVal.obj [("a", JVal.num 2), ("f", JVal.func 3), ("l", JVal.arr [JVal.num 5]),
                   ("n", JVal.obj [("x", JVal.num 8)])])) "l" = some (JVal.arr [JVal.num 5])) ∧
    (jLookup (deepMergeV
        (JVal.obj [("a", JVal.num 1), ("n", JVal.obj [("x", JVal.num 7)]),
                   ("keep", JVal.num 9), ("l", JVal.arr [JVal.num 1])])
        (JVal.obj [("a", JVal.num 2), ("f", JVal.func 3), ("l", JVal.arr [JVal.num 5]),
                   ("n", JVal.obj [("x", JVal.num 8)])])) "n" =
      some (deepMergeV (JVal.obj [("x", JVal.num 7)]) (JVal.obj [("x", JVal.num 8)]))) ∧
    (jLookup (deepMergeV
        (JVal.obj [("a", JVal.num 1), ("n", JVal.obj [("x", JVal.num 7)]),
                   ("keep", JVal.num 9), ("l", JVal.arr [JVal.num 1])])
        (JVal.obj [("a", JVal.num 2), ("f", JVal.func 3), ("l", JVal.arr [JVal.num 5]),
                   ("n", JVal.obj [("x", JVal.num 8)])])) "keep" = some (JVal.num 9)) := by
  refine ⟨?_, ?_, ?_, ?_, ?_⟩
  · exact (deep_merge_layering _ _ "a" (by simp)).1 2 (by simp [alistLookup])
  · exact (deep_merge_layering _ _ "f" (by simp)).2.1 3 (by simp [alistLookup])
  · exact (deep_merge_layering _ _ "l" (by simp)).2.2.1 [JVal.num 5] (by simp [alistLookup])
  · exact (deep_merge_layering _ _ "n" (by simp)).2.2.2.1 [("x", JVal.num 7)]
      [("x", JVal.num 8)] (by simp [alistLookup]) (by simp [alistLookup])
  · have := (deep_merge_layering
      [("a", JVal.num 1), ("n", JVal.obj [("x", JVal.num 7)]),
       ("keep", JVal.num 9), ("l", JVal.arr [JVal.num 1])]
      [("a", JVal.num 2), ("f", JVal.func 3), ("l", JVal.arr [JVal.num 5]),
       ("n", JVal.obj [("x", JVal.num 8)])] "keep" (by simp)).2.2.2.2
      (by simp [alistLookup])
    rw [this]
    simp [alistLookup]

/-! ## Claim C4 -/

/-- The wildcard scan selects, in enumeration order, the first entry
whose key is the literal `"*"` or ends in `"/*"` with its prefix (the
key minus the trailing `*`) starting the pathname — stated through
`List.find?` as the specification describes it. -/
theorem scanRoutes_eq_find {α : Type u} (pathname : String) :
    ∀ m : List (String × α),
      scanRoutes pathname m =
        (m.find? (fun e => e.1 == "*" ||
            (strEndsWith e.1 "/*" && strStartsWith pathname (strDropLast e.1)))).map
          Prod.snd := by
  intro m
  induction m with
  | nil => rfl
  | cons hd tl ih =>
      obtain ⟨k, v⟩ := hd
      by_cases h1 : k = "*"
      · simp [scanRoutes, List.find?, h1]
      · have hb : (k == "*") = false := by
          simpa using h1
        by_cases h2 : (strEndsWith k "/*" && strStartsWith pathname (strDropLast k)) = true
        · simp [scanRoutes, List.find?, h1, h2, hb]
        · simp [scanRoutes, List.find?, h1, h2, hb, ih]

/-- C4: route-override resolution.  (1) An exact-path entry is
selected unconditionally, beating any wildcard; (2) with no exact
match, the first entry in enumeration order that is `"*"` or a
matching `"/*"` prefix pattern is selected (`List.find?` phrasing);
and the concrete examples: (3) with global `{limit: 100}` and
overrides `{"/api/admin/*": {limit: 20}}`, `/api/admin/users` resolves
to limit 20 while (4) `/api/public` resolves to limit 100, and (5)
with overrides `{"*": {limit: 5}, "/x": {limit: 9}}`, `/x` resolves to
limit 9. -/
theorem route_override_resolution :
    (∀ (m : List (String × JVal)) (p : String) (v : JVal),
        alistLookup m p = some v → findRouteOverride (some m) p = some v) ∧
    (∀ (m : List (String × JVal)) (p : String),
        alistLookup m p = none →
        findRouteOverride (some m) p =
          (m.find? (fun e => e.1 == "*" ||
              (strEndsWith e.1 "/*" && strStartsWith p (strDropLast e.1)))).map Prod.snd) ∧
    jLookup (deepMerge (some (JVal.obj [("limit", JVal.num 100)]))
        (findRouteOverride (some [("/api/admin/*", JVal.obj [("limit", JVal.num 20)])])
          "/api/admin/users")) "limit" = some (JVal.num 20) ∧
    jLookup (deepMerge (some (JVal.obj [("limit", JVal.num 100)]))
        (findRouteOverride (some [("/api/admin/*", JVal.obj [("limit", JVal.num 20)])])
          "/api/public")) "limit" = some (JVal.num 100) ∧
    jLookup (deepMerge (some (JVal.obj [("limit", JVal.num 100)]))
        (findRouteOverride (some [("*", JVal.obj [("limit", JVal.num 5)]),
                                  ("/x", JVal.obj [("limit", JVal.num 9)])])
          "/x")) "limit" = some (JVal.num 9) := by
  refine ⟨?_, ?_, ?_, ?_, ?_⟩
  · intro m p v h; simp [findRouteOverride, h]
  · intro m p h; simp [findRouteOverride, h, scanRoutes_eq_find]
  · have h1 : findRouteOverride (some [("/api/admin/*", JVal.obj [("limit", JVal.num 20)])])
        "/api/admin/users" = some (JVal.obj [("limit", JVal.num 20)]) := rfl
    rw [h1]
    show jLookup (deepMergeV (JVal.obj [("limit", JVal.num 100)])
        (JVal.obj [("limit", JVal.num 20)])) "limit" = some (JVal.num 20)
    rw [deepMergeV_obj_obj, jLookup,
      mergeGo_lookup _ "limit" [("limit", JVal.num 20)] _ (by simp)]
    simp [alistLookup, mergeField_num]
  · have h1 : findRouteOverride (some [("/api/admin/*", JVal.obj [("limit", JVal.num 20)])])
        "/api/public" = none := rfl
    rw [h1]
    rfl
  · have h1 : findRouteOverride (some [("*", JVal.obj [("limit", JVal.num 5)]),
        ("/x", JVal.obj [("limit", JVal.num 9)])]) "/x" =
        some (JVal.obj [("limit", JVal.num 9)]) := rfl
    rw [h1]
    show jLookup (deepMergeV (JVal.obj [("limit", JVal.num 100)])
        (JVal.obj [("limit", JVal.num 9)])) "limit" = some (JVal.num 9)
    rw [deepMergeV_obj_obj, jLookup,
      mergeGo_lookup _ "limit" [("limit", JVal.num 9)] _ (by simp)]
    simp [alistLookup, mergeField_num]

/-- Witness for C4's quantified parts: the exact entry `("/x", num 9)`
wins over the earlier `("*", num 5)`, and on a map without an exact
match the scan equals the `find?` description. -/
theorem route_override_resolution_witness :
    findRouteOverride (some [("*", JVal.num 5), ("/x", JVal.num 9)]) "/x" =
      some (JVal.num 9) ∧
    findRouteOverride (some [("/api/admin/*", JVal.num 20)]) "/api/admin/users" =
      (([("/api/admin/*", JVal.num 20)] : List (String × JVal)).find?
          (fun e => e.1 == "*" ||
            (strEndsWith e.1 "/*" &&
             strStartsWith "/api/admin/users" (strDropLast e.1)))).map Prod.snd := by
  constructor
  · exact route_override_resolution.1 [("*", JVal.num 5), ("/x", JVal.num 9)] "/x"
      (JVal.num 9) rfl
  · exact route_override_resolution.2.1 [("/api/admin/*", JVal.num 20)] "/api/admin/users" rfl

/-! ## Pipeline lemmas -/

/-- Lemma: `notify` settles successfully whenever the caller-supplied payload
function (if any) does not throw: the transport outcome — connection
error or any status code — is only logged. -/
theorem notifyRun_ok_of_payload_safe (cfg : WebhookCfg) (req : Request)
    (usage : RateLimitUsage) (tr : Except Err Nat)
    (hsafe : ∀ f, cfg.payload = some f → ∃ b, f req usage = .ok b) :
    ∃ logs, notifyRun cfg req usage tr = .ok logs := by
  unfold notifyRun
  cases hp : cfg.payload with
  | none =>
      cases tr with
      | error e => exact ⟨_, rfl⟩
      | ok status =>
          by_cases hs : (decide (status < 200) || decide (300 ≤ status)) = true
          · exact ⟨["Webhook notification failed"], by simp [hs]⟩
          · exact ⟨[], by simp [hs]⟩
  | some f =>
      obtain ⟨b, hb⟩ := hsafe f hp
      simp only [hb]
      cases tr with
      | error e => exact ⟨_, rfl⟩
      | ok status =>
          by_cases hs : (decide (status < 200) || decide (300 ≤ status)) = true
          · exact ⟨["Webhook notification failed"], by simp [hs]⟩
          · exact ⟨[], by simp [hs]⟩

/-! ## Claim C10 -/

/-- C10: every invocation of the routes-aware wrapped handler
constructs its storage adapter anew after route resolution; with the
default memory backend the counter map starts empty on every request,
so whenever the configured limit is at least 1 the request is counted
as `used = 1` and allowed — usage never carries over between
invocations, whatever happened before. -/
theorem fresh_storage_per_request (o : Options) (h : Request → Response) (env : Env)
    (req : Request) (now : Nat)
    (hroutes : o.routes = none) (hstor : o.storage = .memory) (hskip : o.skip = none)
    (hkey : o.keyGenerator = none) (hlim : o.getLimitForRequest = none)
    (hpos : 1 ≤ o.limit) :
    runRequest o h env req now =
      { result := .ok (stampHeaders (h req)
          [("X-RateLimit-Limit", toString o.limit),
           ("X-RateLimit-Remaining", toString (o.limit - 1)),
           ("X-RateLimit-Reset", toString ((now + o.windowMs) / 1000))]),
        handlerCalls := 1, webhookCalls := 0 } := by
  have hlt : ¬ (o.limit < 1) := by omega
  simp [runRequest, hroutes, hstor, hskip, hkey, hlim, findRouteOverride, storageInit,
    doIncrement, memIncrement, memCleanup, alistLookup, hlt]

/-- Witness for C10: two widely separated invocations with the
spec-scenario options both come back allowed with `used = 1`. -/
theorem fresh_storage_per_request_witness :
    runRequest scenarioOpts sampleHandler sampleEnv sampleReq 0 =
      { result := .ok (stampHeaders (sampleHandler sampleReq)
          [("X-RateLimit-Limit", toString scenarioOpts.limit),
           ("X-RateLimit-Remaining", toString (scenarioOpts.limit - 1)),
           ("X-RateLimit-Reset", toString ((0 + scenarioOpts.windowMs) / 1000))]),
        handlerCalls := 1, webhookCalls := 0 } ∧
    runRequest scenarioOpts sampleHandler sampleEnv sampleReq 1000000 =
      { result := .ok (stampHeaders (sampleHandler sampleReq)
          [("X-RateLimit-Limit", toString scenarioOpts.limit),
           ("X-RateLimit-Remaining", toString (scenarioOpts.limit - 1)),
           ("X-RateLimit-Reset", toString ((1000000 + scenarioOpts.windowMs) / 1000))]),
        handlerCalls := 1, webhookCalls := 0 } := by
  constructor
  · exact fresh_storage_per_request scenarioOpts sampleHandler sampleEnv sampleReq 0
      rfl rfl rfl rfl rfl (by decide)
  · exact fresh_storage_per_request scenarioOpts sampleHandler sampleEnv sampleReq 1000000
      rfl rfl rfl rfl rfl (by decide)

/-! ## Claim C1 -/

/-- C1 evaluated at the spec's failing scenario: `limit = 2`,
`windowMs = 60000`, default memory backend, webhook configured, three
consecutive identical requests (same derived key) at t = 0 s, 1 s,
2 s.  Because `rateLimitedHandler` constructs a fresh `MemoryStorage`
on every invocation, every one of the three requests — the third
included — is allowed with `X-RateLimit-Remaining = "1"`, and the
notification sink is never invoked; the spec's expected
deny-with-retry-after on the third request does not happen. -/
theorem third_request_still_allowed :
    runRequest scenarioOpts sampleHandler sampleEnv sampleReq 0 =
      { result := .ok
          { status := 200,
            headers := [("X-RateLimit-Limit", "2"), ("X-RateLimit-Remaining", "1"),
                        ("X-RateLimit-Reset", "60")],
            body := "hello" },
        handlerCalls := 1, webhookCalls := 0 } ∧
    runRequest scenarioOpts sampleHandler sampleEnv sampleReq 1000 =
      { result := .ok
          { status := 200,
            headers := [("X-RateLimit-Limit", "2"), ("X-RateLimit-Remaining", "1"),
                        ("X-RateLimit-Reset", "61")],
            body := "hello" },
        handlerCalls := 1, webhookCalls := 0 } ∧
    runRequest scenarioOpts sampleHandler sampleEnv sampleReq 2000 =
      { result := .ok
          { status := 200,
            headers := [("X-RateLimit-Limit", "2"), ("X-RateLimit-Remaining", "1"),
                        ("X-RateLimit-Reset", "62")],
            body := "hello" },
        handlerCalls := 1, webhookCalls := 0 } := by
  exact ⟨rfl, rfl, rfl⟩

/-! ## Claim C2 -/

/-- C2 counterexample: an error thrown by the key-derivation function
is NOT caught — the skip/key/limit steps run before the try block, so
the invocation rejects with that very error and the wrapped handler is
never invoked. -/
theorem keygen_error_escapes :
    runRequest { keyGenerator := some (fun _ => .error (.thrown 7)) }
        sampleHandler sampleEnv sampleReq 0 =
      { result := .error (.thrown 7), handlerCalls := 0, webhookCalls := 0 } := by
  rfl

/-- C2 (amended): an error raised by the storage adapter's `increment`
IS caught inside the pipeline — the wrapped handler is invoked once
and its response is returned unmodified, with no rate-limit headers
added and no error surfaced; errors from the key-derivation or
dynamic-limit functions, by contrast, escape (see the
counterexample). -/
theorem increment_error_fail_open (o : Options) (h : Request → Response) (env : Env)
    (req : Request) (now : Nat) (e : Err)
    (hroutes : o.routes = none) (hstor : o.storage = .redis)
    (hclient : o.redisClient = some ()) (hskip : o.skip = none)
    (hkey : o.keyGenerator = none) (hlim : o.getLimitForRequest = none)
    (horacle : env.incrementOracle = .error e) :
    runRequest o h env req now =
      { result := .ok (h req), handlerCalls := 1, webhookCalls := 0 } := by
  simp [runRequest, hroutes, hstor, hclient, hskip, hkey, hlim, findRouteOverride,
    storageInit, doIncrement, horacle]

/-- Witness for C2 (amended): a concrete Redis-configured pipeline
whose oracle throws; the handler's bare response comes back. -/
theorem increment_error_fail_open_witness :
    runRequest { storage := .redis, redisClient := some () } sampleHandler
        { incrementOracle := .error (.thrown 41), transport := .ok 200 } sampleReq 3 =
      { result := .ok (sampleHandler sampleReq), handlerCalls := 1, webhookCalls := 0 } := by
  exact increment_error_fail_open { storage := .redis, redisClient := some () }
    sampleHandler { incrementOracle := .error (.thrown 41), transport := .ok 200 }
    sampleReq 3 (.thrown 41) rfl rfl rfl rfl rfl rfl rfl

/-! ## Claim C3 -/

/-- C3 counterexample: applying `withRateLimit` with redis storage and
no config or client succeeds (setup computes only the defaults-merge),
and the configuration error is instead raised when a request is
processed — it is deferred to request time, where it escapes the
per-request invocation. -/
theorem config_error_raised_at_request_time :
    runRequest { storage := .redis } sampleHandler sampleEnv sampleReq 0 =
      { result := .error (.config "redis"), handlerCalls := 0, webhookCalls := 0 } := by
  rfl

/-- C3 (amended): for each of the four selectable kinds — redis,
mongodb, postgresql, edge — a missing required configuration or client
raises its configuration error during EVERY request invocation, at the
storage-initialization step that runs after route resolution and
before the fail-open try block; it escapes to the caller of that
invocation without the wrapped handler running.  Setup itself (the
defaults merge) is a total computation that cannot raise. -/
theorem config_error_escapes_each_request :
    (∀ (o : Options) (h : Request → Response) (env : Env) (req : Request) (now : Nat),
        o.routes = none → o.storage = .redis →
        o.redisConfig = none → o.redisClient = none →
        runRequest o h env req now =
          { result := .error (.config "redis"), handlerCalls := 0, webhookCalls := 0 }) ∧
    (∀ (o : Options) (h : Request → Response) (env : Env) (req : Request) (now : Nat),
        o.routes = none → o.storage = .mongodb →
        o.mongoConfig = none → o.mongoClient = none →
        runRequest o h env req now =
          { result := .error (.config "mongodb"), handlerCalls := 0, webhookCalls := 0 }) ∧
    (∀ (o : Options) (h : Request → Response) (env : Env) (req : Request) (now : Nat),
        o.routes = none → o.storage = .postgresql →
        o.postgresConfig = none → o.postgresClient = none →
        runRequest o h env req now =
          { result := .error (.config "postgresql"), handlerCalls := 0, webhookCalls := 0 }) ∧
    (∀ (o : Options) (h : Request → Response) (env : Env) (req : Request) (now : Nat),
        o.routes = none → o.storage = .edge → o.edgeConfig = none →
        runRequest o h env req now =
          { result := .error (.config "edge"), handlerCalls := 0, webhookCalls := 0 }) := by
  refine ⟨?_, ?_, ?_, ?_⟩
  · intro o h env req now hroutes hstor hcfg hclient
    simp [runRequest, hroutes, hstor, hcfg, hclient, findRouteOverride, storageInit]
  · intro o h env req now hroutes hstor hcfg hclient
    simp [runRequest, hroutes, hstor, hcfg, hclient, findRouteOverride, storageInit]
  · intro o h env req now hroutes hstor hcfg hclient
    simp [runRequest, hroutes, hstor, hcfg, hclient, findRouteOverride, storageInit]
  · intro o h env req now hroutes hstor hcfg
    simp [runRequest, hroutes, hstor, hcfg, findRouteOverride, storageInit]

/-- Witness for C3 (amended): all four storage kinds, each with its
required configuration and client absent. -/
theorem config_error_escapes_each_request_witness :
    runRequest { storage := .redis } sampleHandler sampleEnv sampleReq 0 =
      { result := .error (.config "redis"), handlerCalls := 0, webhookCalls := 0 } ∧
    runRequest { storage := .mongodb } sampleHandler sampleEnv sampleReq 0 =
      { result := .error (.config "mongodb"), handlerCalls := 0, webhookCalls := 0 } ∧
    runRequest { storage := .postgresql } sampleHandler sampleEnv sampleReq 999 =
      { result := .error (.config "postgresql"), handlerCalls := 0, webhookCalls := 0 } ∧
    runRequest { storage := .edge } sampleHandler sampleEnv sampleReq 999 =
      { result := .error (.config "edge"), handlerCalls := 0, webhookCalls := 0 } := by
  refine ⟨?_, ?_, ?_, ?_⟩
  · exact config_error_escapes_each_request.1 { storage := .redis } sampleHandler sampleEnv
      sampleReq 0 rfl rfl rfl rfl
  · exact config_error_escapes_each_request.2.1 { storage := .mongodb } sampleHandler
      sampleEnv sampleReq 0 rfl rfl rfl rfl
  · exact config_error_escapes_each_request.2.2.1 { storage := .postgresql } sampleHandler
      sampleEnv sampleReq 999 rfl rfl rfl rfl
  · exact config_error_escapes_each_request.2.2.2 { storage := .edge } sampleHandler
      sampleEnv sampleReq 999 rfl rfl rfl

/-! ## Claim C9 -/

/-- C9 counterexample: `notify` computes the webhook body BEFORE its
try block, so a throwing caller-supplied body-construction function
makes `notify` itself raise. -/
theorem notify_payload_throw_raises :
    notifyRun { url := "https://hook.example",
                payload := some (fun _ _ => .error (.thrown 3)) }
        sampleReq { used := 3, remaining := 0, reset := 60, limit := 2 } (.ok 200) =
      .error (.thrown 3) := by
  rfl

/-- C9 (amended): provided the caller-supplied body-construction
function does not throw (in particular with the default body),
`notify` never raises — any transport failure or non-2xx status is
only logged — and under that proviso a notification failure cannot
change the deny decision: the over-limit request is answered 429 with
a Retry-After header and the sink invoked once, whatever the
transport outcome. -/
theorem notify_swallows_transport_failures :
    (∀ (cfg : WebhookCfg) (req : Request) (usage : RateLimitUsage) (tr : Except Err Nat),
        (∀ f, cfg.payload = some f → ∃ b, f req usage = .ok b) →
        ∃ logs, notifyRun cfg req usage tr = .ok logs) ∧
    (∀ (o : Options) (h : Request → Response) (env : Env) (req : Request) (now : Nat)
        (usage : RateLimitUsage) (cfg : WebhookCfg),
        o.routes = none → o.storage = .redis → o.redisClient = some () →
        o.skip = none → o.keyGenerator = none → o.getLimitForRequest = none →
        o.webhook = some cfg → cfg.payload = none →
        o.onLimitReached = none → o.handler = none →
        env.incrementOracle = .ok usage → o.limit < usage.used →
        (runRequest o h env req now).webhookCalls = 1 ∧
        ∃ r, (runRequest o h env req now).result = .ok r ∧ r.status = 429 ∧
          (alistLookup r.headers "Retry-After").isSome = true) := by
  constructor
  · exact notifyRun_ok_of_payload_safe
  · intro o h env req now usage cfg hroutes hstor hclient hskip hkey hlim hwh hpl hon hhd
      horacle hover
    obtain ⟨logs, hlogs⟩ := notifyRun_ok_of_payload_safe cfg req { usage with limit := o.limit }
      env.transport (by intro f hf; rw [hpl] at hf; cases hf)
    simp only [runRequest, hroutes, hstor, hclient, hskip, hkey, hlim, hwh, hpl, hon, hhd,
      findRouteOverride, storageInit, doIncrement, horacle, Option.isNone_some,
      Bool.and_false, Bool.false_and, if_false, hover, if_true, hlogs]
    refine ⟨rfl, _, rfl, rfl, ?_⟩
    simp [alistLookup_set_self]

/-- Witness for C9 (amended): the deny decision survives both a
transport error and a 500-status reply. -/
theorem notify_swallows_transport_failures_witness :
    (∃ logs, notifyRun { url := "https://hook.example" } sampleReq
        { used := 3, remaining := 0, reset := 60, limit := 2 } (.error (.thrown 9)) =
        .ok logs) ∧
    ((runRequest
          { limit := 2, storage := .redis, redisClient := some (),
            webhook := some { url := "https://hook.example" } } sampleHandler
          { incrementOracle :=
              .ok { used := 3, remaining := 0, reset := 60, limit := MAX_SAFE_INTEGER },
            transport := .error (.thrown 9) } sampleReq 0).webhookCalls = 1 ∧
      ∃ r, (runRequest
          { limit := 2, storage := .redis, redisClient := some (),
            webhook := some { url := "https://hook.example" } } sampleHandler
          { incrementOracle :=
              .ok { used := 3, remaining := 0, reset := 60, limit := MAX_SAFE_INTEGER },
            transport := .error (.thrown 9) } sampleReq 0).result = .ok r ∧
        r.status = 429 ∧ (alistLookup r.headers "Retry-After").isSome = true) := by
  constructor
  · exact notify_swallows_transport_failures.1 { url := "https://hook.example" } sampleReq
      { used := 3, remaining := 0, reset := 60, limit := 2 } (.error (.thrown 9))
      (by intro f hf; cases hf)
  · exact notify_swallows_transport_failures.2
      { limit := 2, storage := .redis, redisClient := some (),
        webhook := some { url := "https://hook.example" } } sampleHandler
      { incrementOracle :=
          .ok { used := 3, remaining := 0, reset := 60, limit := MAX_SAFE_INTEGER },
        transport := .error (.thrown 9) } sampleReq 0
      { used := 3, remaining := 0, reset := 60, limit := MAX_SAFE_INTEGER }
      { url := "https://hook.example" } rfl rfl rfl rfl rfl rfl rfl rfl rfl rfl rfl
      (by decide)

end NextLimitr
